import Mathlib

/-!
Verification development for the `static_assert_generic` Rust proc-macro crate
(`src/lib.rs`): the generic-descriptor model (`Generic`), the two request
parsers (`StaticAssertInput`, `ExplicitlyDropInput`) and the two expanders
(`static_assert`, `explicitly_drop`).

Embedding choices:
* A `proc_macro2::TokenStream` is a `List OTok`; identifiers (including Rust
  keywords, which the host lexer emits as identifier tokens), literals,
  punctuation and delimited groups mirror the host token model.
* The host-language parsing primitives that the crate consumes opaquely via
  `syn` (`Ident`, `Token` puncts and keywords, `Type`, `Expr`, `TokenStream`)
  are modelled by small primitive parsers over `List OTok`; per the crate's
  external contract a `syn::Ident` rejects Rust keywords, a `syn::Type` is
  abstracted to a single path identifier, a `syn::Expr` consumes everything up
  to a top-level fat arrow, and a `TokenStream` payload consumes all remaining
  tokens.  Parsers return `Except String`, failure without consumption for the
  single-token speculative parses used with `.is_ok()` in the source.
* `quote::quote!` output is translated token by token, in source order.
  Interpolating an `Option` mirrors quote's `ToTokens for Option`: `None`
  contributes no tokens (`optionToTokens`).
-/

/-- Punctuation characters appearing in the crate's input grammar and in its
`quote!` templates. -/
inductive Punct where
  | colon
  | question
  | comma
  | fatArrow
  | lt
  | gt
  | semi
  | eq
  | bang
  | hash
  | amp
  | star
  | pathSep
deriving DecidableEq, Repr

/-- Token-tree delimiters of the host token model. -/
inductive Delim where
  | paren
  | brace
  | bracket
deriving DecidableEq, Repr

/-- One host token tree (`proc_macro2::TokenTree`): identifier (keywords
included), literal, punctuation, or delimited group. -/
inductive OTok where
  | ident (s : String)
  | lit (s : String)
  | punct (p : Punct)
  | group (d : Delim) (ts : List OTok)

/-- Rust reserved words: `syn::Ident::parse` rejects these even though the
lexer delivers them as identifier tokens. -/
def rustKeywords : List String :=
  ["as", "break", "const", "continue", "crate", "dyn", "else", "enum",
   "false", "fn", "for", "if", "impl", "in", "let", "loop", "match",
   "mod", "move", "mut", "pub", "ref", "return", "self", "Self",
   "static", "struct", "super", "trait", "true", "type", "use",
   "where", "while"]

/-- A string acceptable to `syn::Ident::parse`: not a Rust keyword. -/
def isIdentName (s : String) : Bool := decide (¬ s ∈ rustKeywords)

/-- `input.parse::<syn::Ident>()`: takes one identifier token, rejecting
keywords; consumes nothing on failure. -/
def parseIdent : List OTok → Except String (String × List OTok)
  | OTok.ident s :: rest =>
    if isIdentName s then Except.ok (s, rest)
    else Except.error ("expected identifier, found keyword `" ++ s ++ "`")
  | _ => Except.error "expected identifier"

/-- `input.parse::<syn::Token![p]>()` for a punctuation `p`: succeeds exactly
when the next token is that punctuation; consumes nothing on failure. -/
def parsePunct (p : Punct) : List OTok → Except String (List OTok)
  | OTok.punct q :: rest =>
    if q = p then Except.ok rest else Except.error "expected punctuation"
  | _ => Except.error "expected punctuation"

/-- `input.parse::<syn::Token![const]>()`: succeeds exactly when the next
token is the `const` keyword. -/
def parseConstKeyword : List OTok → Except String (List OTok)
  | OTok.ident s :: rest =>
    if s = "const" then Except.ok rest else Except.error "expected `const`"
  | _ => Except.error "expected `const`"

/-- `input.parse::<syn::Type>()`, abstracted per the spec's opaque host-parser
contract to a single path identifier (which must not be a keyword). -/
def parseType : List OTok → Except String (String × List OTok)
  | OTok.ident s :: rest =>
    if isIdentName s then Except.ok (s, rest) else Except.error "expected type"
  | _ => Except.error "expected type"

/-- The generic-descriptor model (`enum Generic` in `src/lib.rs`): a plain
type parameter, an unsized type parameter, or a typed constant parameter.
The `syn::Type` payload of `Const` is carried as its identifier text. -/
inductive Generic where
  | «Type» (i : String)
  | UnsizedType (i : String)
  | Const (i : String) (t : String)
deriving DecidableEq, Repr

/-- `Generic::definition`: the declaration fragment for a generic-parameter
list (`#i,` / `#i: ?Sized,` / `const #i: #t,`). -/
def Generic.definition : Generic → List OTok
  | Generic.«Type» i => [OTok.ident i, OTok.punct Punct.comma]
  | Generic.UnsizedType i =>
      [OTok.ident i, OTok.punct Punct.colon, OTok.punct Punct.question,
       OTok.ident "Sized", OTok.punct Punct.comma]
  | Generic.Const i t =>
      [OTok.ident "const", OTok.ident i, OTok.punct Punct.colon,
       OTok.ident t, OTok.punct Punct.comma]

/-- `Generic::placement`: the bare-name fragment used when instantiating the
parameter list (`#i,` for every variant). -/
def Generic.placement : Generic → List OTok
  | Generic.«Type» i => [OTok.ident i, OTok.punct Punct.comma]
  | Generic.UnsizedType i => [OTok.ident i, OTok.punct Punct.comma]
  | Generic.Const i _t => [OTok.ident i, OTok.punct Punct.comma]

/-- `Generic::placement_type`: the placement fragment for type-like variants
only; `None` for `Const`. -/
def Generic.placement_type : Generic → Option (List OTok)
  | Generic.«Type» i => some (Generic.placement (Generic.«Type» i))
  | Generic.UnsizedType i => some (Generic.placement (Generic.UnsizedType i))
  | Generic.Const _i _t => none

/-- Whether a descriptor is the `Const` variant. -/
def Generic.isConst : Generic → Bool
  | Generic.Const _ _ => true
  | _ => false

/-- Well-formedness of a descriptor as produced by the parser: its identifier
(and, for `Const`, its type identifier) is accepted by `syn::Ident`. -/
def Generic.validb : Generic → Bool
  | Generic.«Type» i => isIdentName i
  | Generic.UnsizedType i => isIdentName i
  | Generic.Const i t => isIdentName i && isIdentName t

/-- `impl syn::parse::Parse for Generic` (`src/lib.rs` lines 168-194): parse
an identifier, then decide the variant by lookahead for `:` (then `?` is a
usage error, otherwise a type follows and the variant is `Const`) or `?`
(`UnsizedType`) or neither (`Type`); if the leading token is not an
identifier, a leading `const` keyword gets a dedicated diagnostic. -/
def Generic.parse (input : List OTok) : Except String (Generic × List OTok) :=
  match parseIdent input with
  | Except.ok (ident, r1) =>
    match parsePunct Punct.colon r1 with
    | Except.ok r2 =>
      match parsePunct Punct.question r2 with
      | Except.ok _ =>
          Except.error ("Syntax error, if you want to make the type unsized do "
            ++ ident ++ "? instead of " ++ ident ++ ": ?Sized.")
      | Except.error _ =>
        match parseType r2 with
        | Except.ok (t, r3) => Except.ok (Generic.Const ident t, r3)
        | Except.error e => Except.error e
    | Except.error _ =>
      match parsePunct Punct.question r1 with
      | Except.ok r2 => Except.ok (Generic.UnsizedType ident, r2)
      | Except.error _ => Except.ok (Generic.«Type» ident, r1)
  | Except.error err =>
    match parseConstKeyword input with
    | Except.ok _ =>
        Except.error ("Expected identifier, got keyword `const` instead. "
          ++ "If you meant to declare a const generic, the syntax is just "
          ++ "[identifier]: [type], without `const`.")
    | Except.error _ => Except.error err

/-- `parse_terminated(Generic::parse, Token![,])` on the contents of the
parenthesized group: comma-separated descriptors, empty list and trailing
comma allowed, the whole buffer must be consumed.  Fuel is the token count,
which bounds the recursion depth since each element consumes a token. -/
def parseTerminatedGenerics : Nat → List OTok → Except String (List Generic)
  | _, [] => Except.ok []
  | 0, _ :: _ => Except.error "out of fuel"
  | fuel + 1, t :: rest =>
    match Generic.parse (t :: rest) with
    | Except.error e => Except.error e
    | Except.ok (g, r1) =>
      match r1 with
      | [] => Except.ok [g]
      | OTok.punct Punct.comma :: r2 =>
        match parseTerminatedGenerics fuel r2 with
        | Except.ok gs => Except.ok (g :: gs)
        | Except.error e => Except.error e
      | _ :: _ => Except.error "expected `,`"

/-- The validated assertion request (`struct StaticAssertInput`): descriptor
list, boolean expression (opaque token payload), optional message payload. -/
structure StaticAssertInput where
  generics : List Generic
  expression : List OTok
  message : Option (List OTok)

/-- Predicate for tokens that do not end a `syn::Expr` payload: the expression
stops at a top-level `=>`. -/
def notFatArrow : OTok → Bool
  | OTok.punct Punct.fatArrow => false
  | _ => true

/-- `input.parse::<syn::Expr>()`, abstracted per the opaque host-parser
contract: consumes every token up to the first top-level `=>` and fails on an
empty payload. -/
def parseExpr (ts : List OTok) : Except String (List OTok × List OTok) :=
  match ts.takeWhile notFatArrow with
  | [] => Except.error "expected expression"
  | e => Except.ok (e, ts.dropWhile notFatArrow)

/-- `impl syn::parse::Parse for StaticAssertInput` (`src/lib.rs` lines
202-214): a parenthesized descriptor list, then an expression, then an
optional `=>`-prefixed message that takes the whole remaining stream. -/
def StaticAssertInput.parse (ts : List OTok) :
    Except String (StaticAssertInput × List OTok) :=
  match ts with
  | OTok.group Delim.paren gts :: rest =>
    match parseTerminatedGenerics (gts.length + 1) gts with
    | Except.error e => Except.error e
    | Except.ok gs =>
      match parseExpr rest with
      | Except.error e => Except.error e
      | Except.ok (e, r2) =>
        match r2 with
        | OTok.punct Punct.fatArrow :: rmsg =>
            Except.ok ({ generics := gs, expression := e, message := some rmsg }, [])
        | _ => Except.ok ({ generics := gs, expression := e, message := none }, r2)
  | _ => Except.error "expected parentheses"

/-- `syn::parse_macro_input!(input as StaticAssertInput)`: runs the parser and
additionally demands that the whole macro input stream was consumed. -/
def parseStaticAssertMacroInput (ts : List OTok) : Except String StaticAssertInput :=
  match StaticAssertInput.parse ts with
  | Except.ok (i, []) => Except.ok i
  | Except.ok (_, _ :: _) => Except.error "unexpected token"
  | Except.error e => Except.error e

/-- `quote!` interpolation of an `Option<TokenStream>`: `None` contributes no
tokens (quote's `ToTokens for Option`). -/
def optionToTokens : Option (List OTok) → List OTok
  | none => []
  | some m => m

/-- Tokens of `core::marker::PhantomData<#t>` for one placement-as-type
fragment `t`. -/
def phantomField (t : List OTok) : List OTok :=
  [OTok.ident "core", OTok.punct Punct.pathSep, OTok.ident "marker",
   OTok.punct Punct.pathSep, OTok.ident "PhantomData", OTok.punct Punct.lt]
  ++ t ++ [OTok.punct Punct.gt]

/-- Tokens of the repeated interpolation
`#(core::marker::PhantomData<#generic_placement_types>),*`: one marker field
per fragment, comma separated. -/
def phantomFieldList (ts : List (List OTok)) : List OTok :=
  (List.intersperse [OTok.punct Punct.comma] (ts.map phantomField)).flatten

/-- Tokens of the emitted `CHECK` initializer:
`if !(#expression) { panic!(#message) }`. -/
def checkInitTokens (inp : StaticAssertInput) : List OTok :=
  [OTok.ident "if", OTok.punct Punct.bang,
   OTok.group Delim.paren inp.expression,
   OTok.group Delim.brace
     [OTok.ident "panic", OTok.punct Punct.bang,
      OTok.group Delim.paren (optionToTokens inp.message)]]

/-- Tokens of the emitted `impl` body:
`#[allow(unused)] const CHECK: () = if !(#expression) { panic!(#message) };`. -/
def checkImplBody (inp : StaticAssertInput) : List OTok :=
  OTok.punct Punct.hash ::
  OTok.group Delim.bracket
    [OTok.ident "allow", OTok.group Delim.paren [OTok.ident "unused"]] ::
  OTok.ident "const" :: OTok.ident "CHECK" :: OTok.punct Punct.colon ::
  OTok.group Delim.paren [] :: OTok.punct Punct.eq ::
  (checkInitTokens inp ++ [OTok.punct Punct.semi])

/-- The `static_assert` expander (`src/lib.rs` lines 219-238), token for token
the `quote!` template:
`_ = { struct Assert<#defs>(#(PhantomData<#tys>),*); impl<#defs>
Assert<#placement> { #[allow(unused)] const CHECK: () = if !(#expr) {
panic!(#msg) }; } Assert::<#placement>::CHECK }`. -/
def static_assert (inp : StaticAssertInput) : List OTok :=
  let generic_definitions := (inp.generics.map Generic.definition).flatten
  let generic_placement := (inp.generics.map Generic.placement).flatten
  let generic_placement_types := inp.generics.filterMap Generic.placement_type
  [OTok.ident "_", OTok.punct Punct.eq,
   OTok.group Delim.brace
     (OTok.ident "struct" :: OTok.ident "Assert" :: OTok.punct Punct.lt ::
      (generic_definitions ++
       OTok.punct Punct.gt ::
       OTok.group Delim.paren (phantomFieldList generic_placement_types) ::
       OTok.punct Punct.semi ::
       OTok.ident "impl" :: OTok.punct Punct.lt ::
       (generic_definitions ++
        OTok.punct Punct.gt :: OTok.ident "Assert" :: OTok.punct Punct.lt ::
        (generic_placement ++
         OTok.punct Punct.gt ::
         OTok.group Delim.brace (checkImplBody inp) ::
         OTok.ident "Assert" :: OTok.punct Punct.pathSep :: OTok.punct Punct.lt ::
         (generic_placement ++
          [OTok.punct Punct.gt, OTok.punct Punct.pathSep, OTok.ident "CHECK"])))))]

/-- The validated destruction-guard request (`struct ExplicitlyDropInput`):
exactly one descriptor and an optional message payload. -/
structure ExplicitlyDropInput where
  generic : Generic
  message : Option (List OTok)

/-- `impl syn::parse::Parse for ExplicitlyDropInput` (`src/lib.rs` lines
454-461): one descriptor, then an optional `=>`-prefixed message taking the
whole remaining stream. -/
def ExplicitlyDropInput.parse (ts : List OTok) :
    Except String (ExplicitlyDropInput × List OTok) :=
  match Generic.parse ts with
  | Except.error e => Except.error e
  | Except.ok (g, rest) =>
    match rest with
    | OTok.punct Punct.fatArrow :: rmsg =>
        Except.ok ({ generic := g, message := some rmsg }, [])
    | _ => Except.ok ({ generic := g, message := none }, rest)

/-- `syn::parse_macro_input!(input as ExplicitlyDropInput)`: the parser plus
the end-of-input requirement, so leftover tokens (a second descriptor) are a
macro-expansion-time error. -/
def parseExplicitlyDropMacroInput (ts : List OTok) : Except String ExplicitlyDropInput :=
  match ExplicitlyDropInput.parse ts with
  | Except.ok (i, []) => Except.ok i
  | Except.ok (_, _ :: _) => Except.error "unexpected token"
  | Except.error e => Except.error e

/-- Tokens of the emitted `MANUAL_DROP` initializer: `panic!(#message)` —
unconditional, no boolean guard. -/
def manualDropInitTokens (inp : ExplicitlyDropInput) : List OTok :=
  [OTok.ident "panic", OTok.punct Punct.bang,
   OTok.group Delim.paren (optionToTokens inp.message)]

/-- Tokens of the emitted destruction-guard `impl` body:
`const MANUAL_DROP: () = panic!(#message);`. -/
def dropImplBody (inp : ExplicitlyDropInput) : List OTok :=
  OTok.ident "const" :: OTok.ident "MANUAL_DROP" :: OTok.punct Punct.colon ::
  OTok.group Delim.paren [] :: OTok.punct Punct.eq ::
  (manualDropInitTokens inp ++ [OTok.punct Punct.semi])

/-- The `explicitly_drop` expander (`src/lib.rs` lines 448-481), token for
token the `quote!` template:
`fn drop(&mut self) { _ = { struct Assert<#def>#phantomdatas; impl<#def>
Assert<#placement> { const MANUAL_DROP: () = panic!(#msg); }
Assert::<#placement>::MANUAL_DROP }; }`. -/
def explicitly_drop (inp : ExplicitlyDropInput) : List OTok :=
  let generic_definition := inp.generic.definition
  let generic_placement := inp.generic.placement
  let phantomdatas := inp.generic.placement_type.map
    (fun x => [OTok.group Delim.paren (phantomField x)])
  [OTok.ident "fn", OTok.ident "drop",
   OTok.group Delim.paren
     [OTok.punct Punct.amp, OTok.ident "mut", OTok.ident "self"],
   OTok.group Delim.brace
     [OTok.ident "_", OTok.punct Punct.eq,
      OTok.group Delim.brace
        (OTok.ident "struct" :: OTok.ident "Assert" :: OTok.punct Punct.lt ::
         (generic_definition ++
          OTok.punct Punct.gt ::
          (optionToTokens phantomdatas ++
           OTok.punct Punct.semi ::
           OTok.ident "impl" :: OTok.punct Punct.lt ::
           (generic_definition ++
            OTok.punct Punct.gt :: OTok.ident "Assert" :: OTok.punct Punct.lt ::
            (generic_placement ++
             OTok.punct Punct.gt ::
             OTok.group Delim.brace (dropImplBody inp) ::
             OTok.ident "Assert" :: OTok.punct Punct.pathSep :: OTok.punct Punct.lt ::
             (generic_placement ++
              [OTok.punct Punct.gt, OTok.punct Punct.pathSep,
               OTok.ident "MANUAL_DROP"])))))),
      OTok.punct Punct.semi]]

/-- Whether an `Except` result is a success. -/
def exceptIsOk {α : Type} : Except String α → Bool
  | Except.ok _ => true
  | Except.error _ => false

/-- Canonical input rendering of one descriptor, inverse to `Generic.parse`:
`name`, `name?`, or `name: type`. -/
def renderGenericInput : Generic → List OTok
  | Generic.«Type» i => [OTok.ident i]
  | Generic.UnsizedType i => [OTok.ident i, OTok.punct Punct.question]
  | Generic.Const i t => [OTok.ident i, OTok.punct Punct.colon, OTok.ident t]

/-- Canonical input rendering of a comma-separated descriptor list. -/
def renderGenericList : List Generic → List OTok
  | [] => []
  | [g] => renderGenericInput g
  | g :: gs => renderGenericInput g ++ OTok.punct Punct.comma :: renderGenericList gs

/-- Whether a token stream starts with the given punctuation. -/
def startsWithPunct (p : Punct) : List OTok → Bool
  | OTok.punct q :: _ => q = p
  | _ => false

/-- A token stream that does not begin with `:` or `?`, so that a preceding
identifier parses as a plain `Type` descriptor. -/
def lookaheadClear (ts : List OTok) : Bool :=
  !startsWithPunct Punct.colon ts && !startsWithPunct Punct.question ts

/-- Tokens other than the `>` closing a generic-parameter segment. -/
def notGt : OTok → Bool
  | OTok.punct Punct.gt => false
  | _ => true

/-- Tokens other than the `=` introducing a constant initializer. -/
def notAssign : OTok → Bool
  | OTok.punct Punct.eq => false
  | _ => true

/-- Tokens other than the `;` ending a constant item. -/
def notSemi : OTok → Bool
  | OTok.punct Punct.semi => false
  | _ => true

/-- Splits an emitted stream at the first top-level `>`: the generic segment
before it and the tokens after it. -/
def takeToGt (ts : List OTok) : Option (List OTok × List OTok) :=
  match ts.dropWhile notGt with
  | OTok.punct Punct.gt :: rest => some (ts.takeWhile notGt, rest)
  | _ => none

/-- The associated-constant declaration starting at the head of a stream, if
any: `const NAME : TYPE = INIT ;` gives `(NAME, TYPE, INIT)`. -/
def constDeclAt? : List OTok → Option (String × List OTok × List OTok)
  | OTok.ident "const" :: OTok.ident name :: OTok.punct Punct.colon :: rest =>
    (match rest.dropWhile notAssign with
     | OTok.punct Punct.eq :: r2 =>
         some (name, rest.takeWhile notAssign, r2.takeWhile notSemi)
     | _ => none)
  | _ => none

/-- All associated-constant declarations at the top level of a stream (nested
groups are not entered): the observable "const members" of an emitted item
body. -/
def scanConstDecls : List OTok → List (String × List OTok × List OTok)
  | [] => []
  | t :: rest => (constDeclAt? (t :: rest)).toList ++ scanConstDecls rest

/-- The pieces of a `static_assert` expansion, recovered from its token
stream by `assertParts?`. -/
structure AssertParts where
  defs : List OTok
  fields : List OTok
  implDefs : List OTok
  implPlacement : List OTok
  implBody : List OTok
  refPlacement : List OTok
  constName : String

/-- Strips the outer discard-assignment `_ = { body }` of an expansion. -/
def stripAssign : List OTok → Option (List OTok)
  | [OTok.ident "_", OTok.punct Punct.eq, OTok.group Delim.brace body] => some body
  | _ => none

/-- Strips the carrier-struct head `struct Assert<`. -/
def stripStructHead : List OTok → Option (List OTok)
  | OTok.ident "struct" :: OTok.ident "Assert" :: OTok.punct Punct.lt :: rest =>
      some rest
  | _ => none

/-- Strips the tuple-struct field group, the terminating `;` and the
`impl<` head, returning the field tokens and the remainder. -/
def stripFieldsSemiImpl : List OTok → Option (List OTok × List OTok)
  | OTok.group Delim.paren fields :: OTok.punct Punct.semi ::
    OTok.ident "impl" :: OTok.punct Punct.lt :: rest => some (fields, rest)
  | _ => none

/-- Strips the `Assert<` head of the impl's self type. -/
def stripAssertLt : List OTok → Option (List OTok)
  | OTok.ident "Assert" :: OTok.punct Punct.lt :: rest => some rest
  | _ => none

/-- Strips the impl body group followed by the forced-reference head
`Assert::<`, returning the body tokens and the remainder. -/
def stripImplBodyRef : List OTok → Option (List OTok × List OTok)
  | OTok.group Delim.brace body :: OTok.ident "Assert" ::
    OTok.punct Punct.pathSep :: OTok.punct Punct.lt :: rest => some (body, rest)
  | _ => none

/-- Strips the final `::NAME` of the forced reference, which must end the
stream, returning the referenced constant name. -/
def stripFinalRef : List OTok → Option String
  | [OTok.punct Punct.pathSep, OTok.ident name] => some name
  | _ => none

/-- Inverse parser for the `static_assert` expansion shape: succeeds exactly
on streams of the form `_ = { struct Assert<defs>(fields); impl<implDefs>
Assert<implPlacement> { implBody } Assert::<refPlacement>::constName }`. -/
def assertParts? (out : List OTok) : Option AssertParts :=
  match stripAssign out with
  | none => none
  | some body =>
  match stripStructHead body with
  | none => none
  | some r1 =>
  match takeToGt r1 with
  | none => none
  | some (defs, r2) =>
  match stripFieldsSemiImpl r2 with
  | none => none
  | some (fields, r3) =>
  match takeToGt r3 with
  | none => none
  | some (implDefs, r4) =>
  match stripAssertLt r4 with
  | none => none
  | some r5 =>
  match takeToGt r5 with
  | none => none
  | some (implPlacement, r6) =>
  match stripImplBodyRef r6 with
  | none => none
  | some (implBody, r7) =>
  match takeToGt r7 with
  | none => none
  | some (refPlacement, r8) =>
  match stripFinalRef r8 with
  | none => none
  | some constName =>
      some ⟨defs, fields, implDefs, implPlacement, implBody, refPlacement, constName⟩

/-- The pieces of an `explicitly_drop` expansion, recovered from its token
stream by `dropParts?`. -/
structure DropParts where
  defs : List OTok
  phantom : Option (List OTok)
  implDefs : List OTok
  implPlacement : List OTok
  implBody : List OTok
  refPlacement : List OTok
  constName : String

/-- Strips the destructor wrapper `fn drop(&mut self) { body }`. -/
def stripDropHeader : List OTok → Option (List OTok)
  | [OTok.ident "fn", OTok.ident "drop",
     OTok.group Delim.paren [OTok.punct Punct.amp, OTok.ident "mut", OTok.ident "self"],
     OTok.group Delim.brace body] => some body
  | _ => none

/-- Strips the discard-assignment statement `_ = { inner };` that forms the
whole destructor body. -/
def stripAssignStmt : List OTok → Option (List OTok)
  | [OTok.ident "_", OTok.punct Punct.eq, OTok.group Delim.brace inner,
     OTok.punct Punct.semi] => some inner
  | _ => none

/-- Strips the optional marker-field group, the terminating `;` and the
`impl<` head of a destruction-guard carrier. -/
def stripPhantomSemiImpl : List OTok → Option (Option (List OTok) × List OTok)
  | OTok.punct Punct.semi :: OTok.ident "impl" :: OTok.punct Punct.lt :: rest =>
      some (none, rest)
  | OTok.group Delim.paren pf :: OTok.punct Punct.semi ::
    OTok.ident "impl" :: OTok.punct Punct.lt :: rest => some (some pf, rest)
  | _ => none

/-- Inverse parser for the `explicitly_drop` expansion shape: succeeds exactly
on streams of the form `fn drop(&mut self) { _ = { struct
Assert<defs>phantom?; impl<implDefs> Assert<implPlacement> { implBody }
Assert::<refPlacement>::constName }; }`. -/
def dropParts? (out : List OTok) : Option DropParts :=
  match stripDropHeader out with
  | none => none
  | some fnBody =>
  match stripAssignStmt fnBody with
  | none => none
  | some body =>
  match stripStructHead body with
  | none => none
  | some r1 =>
  match takeToGt r1 with
  | none => none
  | some (defs, r2) =>
  match stripPhantomSemiImpl r2 with
  | none => none
  | some (phantom, r3) =>
  match takeToGt r3 with
  | none => none
  | some (implDefs, r4) =>
  match stripAssertLt r4 with
  | none => none
  | some r5 =>
  match takeToGt r5 with
  | none => none
  | some (implPlacement, r6) =>
  match stripImplBodyRef r6 with
  | none => none
  | some (implBody, r7) =>
  match takeToGt r7 with
  | none => none
  | some (refPlacement, r8) =>
  match stripFinalRef r8 with
  | none => none
  | some constName =>
      some ⟨defs, phantom, implDefs, implPlacement, implBody, refPlacement, constName⟩

/-- Outcome of host constant evaluation of an emitted initializer: the unit
value, or a compile-time panic carrying the message token payload. -/
inductive ConstEvalOutcome where
  | unitVal : ConstEvalOutcome
  | panicked (msg : List OTok) : ConstEvalOutcome

/-- Host constant evaluation, restricted to the two initializer shapes this
crate emits — `if !(expr) { panic!(msg) }` (with implicit unit else-branch)
and the unconditional `panic!(msg)` — parameterized by the compile-time value
of the boolean expression. -/
def evalEmittedInit (exprVal : Bool) : List OTok → Option ConstEvalOutcome
  | [OTok.ident "if", OTok.punct Punct.bang, OTok.group Delim.paren _,
     OTok.group Delim.brace
       [OTok.ident "panic", OTok.punct Punct.bang, OTok.group Delim.paren m]] =>
      some (if exprVal then ConstEvalOutcome.unitVal else ConstEvalOutcome.panicked m)
  | [OTok.ident "panic", OTok.punct Punct.bang, OTok.group Delim.paren m] =>
      some (ConstEvalOutcome.panicked m)
  | _ => none

/-- The crate documentation's example of a failing assertion with no message:
`static_assert!(() 45 * 25 < 3)`. -/
def noMsgExampleTokens : List OTok :=
  [OTok.group Delim.paren [],
   OTok.lit "45", OTok.punct Punct.star, OTok.lit "25",
   OTok.punct Punct.lt, OTok.lit "3"]

/-- The request that `noMsgExampleTokens` parses to. -/
def noMsgExampleRequest : StaticAssertInput :=
  { generics := [],
    expression := [OTok.lit "45", OTok.punct Punct.star, OTok.lit "25",
                   OTok.punct Punct.lt, OTok.lit "3"],
    message := none }

/-- An assertion invocation whose descriptor list names `T` twice:
`static_assert!((T, T) true)`. -/
def dupExampleTokens : List OTok :=
  [OTok.group Delim.paren
     [OTok.ident "T", OTok.punct Punct.comma, OTok.ident "T"],
   OTok.lit "true"]

theorem takeWhile_append_all {α : Type} (p : α → Bool) (xs ys : List α)
    (h : ∀ x ∈ xs, p x = true) :
    (xs ++ ys).takeWhile p = xs ++ ys.takeWhile p := by
  induction xs with
  | nil => simp
  | cons a l ih =>
    have ha : p a = true := h a (List.mem_cons_self a l)
    simp only [List.cons_append, List.takeWhile_cons, ha, if_true]
    rw [ih (fun x hx => h x (List.mem_cons_of_mem a hx))]

theorem dropWhile_append_all {α : Type} (p : α → Bool) (xs ys : List α)
    (h : ∀ x ∈ xs, p x = true) :
    (xs ++ ys).dropWhile p = ys.dropWhile p := by
  induction xs with
  | nil => simp
  | cons a l ih =>
    have ha : p a = true := h a (List.mem_cons_self a l)
    simp only [List.cons_append, List.dropWhile_cons, ha, if_true]
    exact ih (fun x hx => h x (List.mem_cons_of_mem a hx))

theorem mem_definition_notGt (g : Generic) : ∀ x ∈ g.definition, notGt x = true := by
  cases g with
  | «Type» i =>
    intro x hx
    simp only [Generic.definition, List.mem_cons, List.mem_singleton,
      List.not_mem_nil, or_false] at hx
    rcases hx with rfl | rfl <;> rfl
  | UnsizedType i =>
    intro x hx
    simp only [Generic.definition, List.mem_cons, List.mem_singleton,
      List.not_mem_nil, or_false] at hx
    rcases hx with rfl | rfl | rfl | rfl | rfl <;> rfl
  | Const i t =>
    intro x hx
    simp only [Generic.definition, List.mem_cons, List.mem_singleton,
      List.not_mem_nil, or_false] at hx
    rcases hx with rfl | rfl | rfl | rfl | rfl <;> rfl

theorem mem_placement_notGt (g : Generic) : ∀ x ∈ g.placement, notGt x = true := by
  cases g <;>
    · intro x hx
      simp only [Generic.placement, List.mem_cons, List.mem_singleton,
        List.not_mem_nil, or_false] at hx
      rcases hx with rfl | rfl <;> rfl

theorem flatten_definition_notGt (gs : List Generic) :
    ∀ x ∈ (gs.map Generic.definition).flatten, notGt x = true := by
  intro x hx
  rw [List.mem_flatten] at hx
  obtain ⟨s, hs, hxs⟩ := hx
  rw [List.mem_map] at hs
  obtain ⟨g, _, rfl⟩ := hs
  exact mem_definition_notGt g x hxs

theorem flatten_placement_notGt (gs : List Generic) :
    ∀ x ∈ (gs.map Generic.placement).flatten, notGt x = true := by
  intro x hx
  rw [List.mem_flatten] at hx
  obtain ⟨s, hs, hxs⟩ := hx
  rw [List.mem_map] at hs
  obtain ⟨g, _, rfl⟩ := hs
  exact mem_placement_notGt g x hxs

theorem takeToGt_append (xs tail : List OTok) (h : ∀ x ∈ xs, notGt x = true) :
    takeToGt (xs ++ OTok.punct Punct.gt :: tail) = some (xs, tail) := by
  unfold takeToGt
  rw [dropWhile_append_all _ _ _ h, takeWhile_append_all _ _ _ h]
  simp [List.dropWhile_cons, List.takeWhile_cons, notGt]

theorem assertParts_static_assert (inp : StaticAssertInput) :
    assertParts? (static_assert inp) =
      some { defs := (inp.generics.map Generic.definition).flatten,
             fields := phantomFieldList (inp.generics.filterMap Generic.placement_type),
             implDefs := (inp.generics.map Generic.definition).flatten,
             implPlacement := (inp.generics.map Generic.placement).flatten,
             implBody := checkImplBody inp,
             refPlacement := (inp.generics.map Generic.placement).flatten,
             constName := "CHECK" } := by
  have hd := flatten_definition_notGt inp.generics
  have hp := flatten_placement_notGt inp.generics
  simp only [static_assert, assertParts?, stripAssign, stripStructHead,
    takeToGt_append _ _ hd, stripFieldsSemiImpl,
    takeToGt_append _ _ hp, stripAssertLt, stripImplBodyRef, stripFinalRef]

theorem dropParts_explicitly_drop (inp : ExplicitlyDropInput) :
    dropParts? (explicitly_drop inp) =
      some { defs := inp.generic.definition,
             phantom := inp.generic.placement_type.map phantomField,
             implDefs := inp.generic.definition,
             implPlacement := inp.generic.placement,
             implBody := dropImplBody inp,
             refPlacement := inp.generic.placement,
             constName := "MANUAL_DROP" } := by
  have hd := mem_definition_notGt inp.generic
  have hp := mem_placement_notGt inp.generic
  rcases hpt : inp.generic.placement_type with _ | x <;>
    simp only [explicitly_drop, hpt, Option.map, optionToTokens,
      List.nil_append, List.cons_append, dropParts?,
      stripDropHeader, stripAssignStmt, stripStructHead,
      takeToGt_append _ _ hd, stripPhantomSemiImpl,
      takeToGt_append _ _ hp, stripAssertLt, stripImplBodyRef, stripFinalRef]

theorem scanConstDecls_checkImplBody (inp : StaticAssertInput) :
    scanConstDecls (checkImplBody inp) =
      [("CHECK", [OTok.group Delim.paren []], checkInitTokens inp)] := rfl

theorem scanConstDecls_dropImplBody (inp : ExplicitlyDropInput) :
    scanConstDecls (dropImplBody inp) =
      [("MANUAL_DROP", [OTok.group Delim.paren []], manualDropInitTokens inp)] := rfl

theorem parsePunct_not_starts (p : Punct) (ts : List OTok)
    (h : startsWithPunct p ts = false) :
    parsePunct p ts = Except.error "expected punctuation" := by
  cases ts with
  | nil => rfl
  | cons t r =>
    cases t with
    | punct q =>
      simp only [startsWithPunct, decide_eq_false_iff_not] at h
      simp [parsePunct, h]
    | ident s => rfl
    | lit s => rfl
    | group d l => rfl

theorem lookaheadClear_split (ts : List OTok) (h : lookaheadClear ts = true) :
    startsWithPunct Punct.colon ts = false ∧
      startsWithPunct Punct.question ts = false := by
  simp only [lookaheadClear, Bool.and_eq_true, Bool.not_eq_true'] at h
  exact h

theorem Generic.parse_render (g : Generic) (rest : List OTok)
    (hg : Generic.validb g = true) (hrest : lookaheadClear rest = true) :
    Generic.parse (renderGenericInput g ++ rest) = Except.ok (g, rest) := by
  obtain ⟨hc, hq⟩ := lookaheadClear_split rest hrest
  cases g with
  | «Type» i =>
    simp only [Generic.validb] at hg
    simp [renderGenericInput, Generic.parse, parseIdent, hg,
      parsePunct_not_starts _ _ hc, parsePunct_not_starts _ _ hq]
  | UnsizedType i =>
    simp only [Generic.validb] at hg
    simp [renderGenericInput, Generic.parse, parseIdent, hg, parsePunct]
  | Const i t =>
    simp only [Generic.validb, Bool.and_eq_true] at hg
    simp [renderGenericInput, Generic.parse, parseIdent, hg.1, hg.2,
      parsePunct, parseType, parsePunct_not_starts _ _ hq]

theorem renderGenericInput_cons (g : Generic) :
    ∃ t rest, renderGenericInput g = t :: rest := by
  cases g <;> exact ⟨_, _, rfl⟩

theorem parseTerminatedGenerics_render :
    ∀ gs : List Generic, gs.all Generic.validb = true →
      ∀ fuel : Nat, gs.length ≤ fuel →
        parseTerminatedGenerics fuel (renderGenericList gs) = Except.ok gs := by
  intro gs
  induction gs with
  | nil => intro _ fuel _; cases fuel <;> rfl
  | cons g t ih =>
    intro h fuel hf
    simp only [List.all_cons, Bool.and_eq_true] at h
    cases fuel with
    | zero => exact absurd hf (by simp)
    | succ f =>
      obtain ⟨t0, r0, hg0⟩ := renderGenericInput_cons g
      cases t with
      | nil =>
        have hparse : Generic.parse (renderGenericInput g) = Except.ok (g, []) := by
          have h2 := Generic.parse_render g [] h.1 rfl
          rwa [List.append_nil] at h2
        simp only [renderGenericList, hg0]
        simp only [parseTerminatedGenerics]
        rw [← hg0, hparse]
      | cons g2 t2 =>
        have hparse :
            Generic.parse (renderGenericInput g ++
                OTok.punct Punct.comma :: renderGenericList (g2 :: t2)) =
              Except.ok (g, OTok.punct Punct.comma :: renderGenericList (g2 :: t2)) :=
          Generic.parse_render g _ h.1 rfl
        simp only [renderGenericList, hg0, List.cons_append]
        simp only [parseTerminatedGenerics]
        rw [← List.cons_append, ← hg0, hparse]
        have hlen : (g2 :: t2).length ≤ f := by
          simp only [List.length_cons] at hf ⊢
          omega
        simp only [ih h.2 f hlen]

theorem filterMap_placement_type_eq (gs : List Generic) :
    gs.filterMap Generic.placement_type
      = (gs.filter (fun g => !Generic.isConst g)).map Generic.placement := by
  induction gs with
  | nil => rfl
  | cons g t ih =>
    cases g <;>
      simp [List.filterMap_cons, List.filter_cons, Generic.placement_type,
        Generic.isConst, Generic.placement, ih]

theorem filter_not_isConst_nil (gs : List Generic)
    (h : gs.all Generic.isConst = true) :
    gs.filter (fun g => !Generic.isConst g) = [] := by
  induction gs with
  | nil => rfl
  | cons g t ih =>
    simp only [List.all_cons, Bool.and_eq_true] at h
    simp [List.filter_cons, h.1, ih h.2]

/-- C1: for every assertion request, `static_assert` emits the discard
assignment `_ = { ... }` whose block declares a carrier type with exactly one
associated constant, named `CHECK`, of unit type, whose initializer is
`if !(expression) { panic!(message) }` (implicit unit else-branch), followed
by a forced reference `Assert::<placement>::CHECK` reading that constant; the
initializer const-evaluates to unit when the expression is true and to a
panic carrying the message when it is false. -/
theorem static_assert_emits_guarded_check_constant (inp : StaticAssertInput) :
    ∃ parts : AssertParts,
      assertParts? (static_assert inp) = some parts ∧
      scanConstDecls parts.implBody =
        [("CHECK", [OTok.group Delim.paren []], checkInitTokens inp)] ∧
      parts.constName = "CHECK" ∧
      parts.refPlacement = parts.implPlacement ∧
      (∀ b : Bool,
        evalEmittedInit b (checkInitTokens inp) =
          some (if b then ConstEvalOutcome.unitVal
                else ConstEvalOutcome.panicked (optionToTokens inp.message))) :=
  ⟨_, assertParts_static_assert inp, scanConstDecls_checkImplBody inp,
    rfl, rfl, fun _ => rfl⟩

/-- C2: the carrier synthesized by `static_assert` is generic over exactly the
declared descriptors rendered with `Generic.definition` in declared order
(both on the struct and on the impl), its tuple fields are exactly one
`PhantomData` marker per descriptor with a placement-as-type rendering, in
order; `placement_type` is present exactly for the non-`Const` (type-like)
variants, and an all-`Const` request yields a carrier with no fields. -/
theorem static_assert_carrier_generics_and_marker_fields (inp : StaticAssertInput) :
    (∃ parts : AssertParts,
       assertParts? (static_assert inp) = some parts ∧
       parts.defs = (inp.generics.map Generic.definition).flatten ∧
       parts.implDefs = (inp.generics.map Generic.definition).flatten ∧
       parts.fields = phantomFieldList (inp.generics.filterMap Generic.placement_type)) ∧
    inp.generics.filterMap Generic.placement_type
      = (inp.generics.filter (fun g => !Generic.isConst g)).map Generic.placement ∧
    (∀ g : Generic, (Generic.placement_type g).isSome = !Generic.isConst g) ∧
    (inp.generics.all Generic.isConst = true →
      phantomFieldList (inp.generics.filterMap Generic.placement_type) = []) := by
  refine ⟨⟨_, assertParts_static_assert inp, rfl, rfl, rfl⟩,
    filterMap_placement_type_eq inp.generics, ?_, ?_⟩
  · intro g; cases g <;> rfl
  · intro hall
    rw [filterMap_placement_type_eq, filter_not_isConst_nil inp.generics hall]
    rfl

theorem static_assert_carrier_generics_and_marker_fields_witness :
    phantomFieldList
        (([Generic.Const "N" "usize"] : List Generic).filterMap Generic.placement_type)
      = [] :=
  (static_assert_carrier_generics_and_marker_fields
    { generics := [Generic.Const "N" "usize"],
      expression := [OTok.ident "N"], message := none }).2.2.2 rfl

/-- C3: on the crate documentation's own failing example with no message,
`static_assert!(() 45 * 25 < 3)`, the parser records no message and the
expander emits `panic!()` with an empty argument group — the default literal
"Static assert failed." promised by the documentation is never substituted
into the panic invocation (quote's `Option` interpolation renders `None` as
no tokens). -/
theorem static_assert_no_default_message_literal :
    parseStaticAssertMacroInput noMsgExampleTokens = Except.ok noMsgExampleRequest ∧
    noMsgExampleRequest.message = none ∧
    optionToTokens noMsgExampleRequest.message = [] ∧
    (∃ parts : AssertParts,
       assertParts? (static_assert noMsgExampleRequest) = some parts ∧
       scanConstDecls parts.implBody =
         [("CHECK", [OTok.group Delim.paren []],
           [OTok.ident "if", OTok.punct Punct.bang,
            OTok.group Delim.paren noMsgExampleRequest.expression,
            OTok.group Delim.brace
              [OTok.ident "panic", OTok.punct Punct.bang,
               OTok.group Delim.paren []]])]) :=
  ⟨rfl, rfl, rfl,
    ⟨_, assertParts_static_assert noMsgExampleRequest, rfl⟩⟩

/-- C4: after one identifier, `Generic.parse` decides the variant by
lookahead: `ident : type` parses as `Const`, `ident ?` parses as
`UnsizedType`, and a bare identifier (followed by neither `:` nor `?`)
parses as `Type`, each leaving the remaining tokens untouched. -/
theorem generic_parse_variant_lookahead (i t : String) (rest : List OTok)
    (hi : isIdentName i = true) (ht : isIdentName t = true)
    (hrest : lookaheadClear rest = true) :
    Generic.parse (OTok.ident i :: OTok.punct Punct.colon :: OTok.ident t :: rest)
      = Except.ok (Generic.Const i t, rest) ∧
    Generic.parse (OTok.ident i :: OTok.punct Punct.question :: rest)
      = Except.ok (Generic.UnsizedType i, rest) ∧
    Generic.parse (OTok.ident i :: rest)
      = Except.ok (Generic.«Type» i, rest) := by
  refine ⟨?_, ?_, ?_⟩
  · have h := Generic.parse_render (Generic.Const i t) rest
      (by simp [Generic.validb, hi, ht]) hrest
    simpa [renderGenericInput] using h
  · have h := Generic.parse_render (Generic.UnsizedType i) rest
      (by simp [Generic.validb, hi]) hrest
    simpa [renderGenericInput] using h
  · have h := Generic.parse_render (Generic.«Type» i) rest
      (by simp [Generic.validb, hi]) hrest
    simpa [renderGenericInput] using h

theorem generic_parse_variant_lookahead_witness :
    Generic.parse [OTok.ident "T", OTok.punct Punct.colon, OTok.ident "u32"]
      = Except.ok (Generic.Const "T" "u32", []) ∧
    Generic.parse [OTok.ident "T", OTok.punct Punct.question]
      = Except.ok (Generic.UnsizedType "T", []) ∧
    Generic.parse [OTok.ident "T"] = Except.ok (Generic.«Type» "T", []) :=
  generic_parse_variant_lookahead "T" "u32" [] (by decide) (by decide) (by decide)

/-- C5: a descriptor written `ident : ?` is rejected by `Generic.parse` with
the usage error that names the correct trailing-`?` spelling on the
identifier (`ident?`) instead of `ident: ?Sized` — never silently merged. -/
theorem generic_parse_colon_question_usage_error (i : String) (rest : List OTok)
    (hi : isIdentName i = true) :
    Generic.parse (OTok.ident i :: OTok.punct Punct.colon ::
        OTok.punct Punct.question :: rest)
      = Except.error ("Syntax error, if you want to make the type unsized do "
          ++ i ++ "? instead of " ++ i ++ ": ?Sized.") := by
  simp [Generic.parse, parseIdent, hi, parsePunct]

theorem generic_parse_colon_question_usage_error_witness :
    Generic.parse [OTok.ident "T", OTok.punct Punct.colon, OTok.punct Punct.question]
      = Except.error ("Syntax error, if you want to make the type unsized do "
          ++ "T" ++ "? instead of " ++ "T" ++ ": ?Sized.") :=
  generic_parse_colon_question_usage_error "T" [] (by decide)

/-- C6: a destruction-guard invocation parses successfully exactly when it
holds exactly one generic descriptor — zero descriptors or two or more
comma-separated descriptors make `parseExplicitlyDropMacroInput` fail, at
macro-expansion time, before any expansion (hence before any constant
evaluation); one descriptor optionally followed by an arrow-prefixed message
parses successfully. -/
theorem explicitly_drop_arity_one (gs : List Generic) (g : Generic)
    (msgToks : List OTok) (hgs : gs.all Generic.validb = true)
    (hg : Generic.validb g = true) :
    (exceptIsOk (parseExplicitlyDropMacroInput (renderGenericList gs)) = true
      ↔ gs.length = 1) ∧
    parseExplicitlyDropMacroInput
        (renderGenericInput g ++ OTok.punct Punct.fatArrow :: msgToks)
      = Except.ok { generic := g, message := some msgToks } := by
  constructor
  · cases gs with
    | nil =>
      simp [renderGenericList, parseExplicitlyDropMacroInput,
        ExplicitlyDropInput.parse, Generic.parse, parseIdent,
        parseConstKeyword, exceptIsOk]
    | cons g1 t =>
      simp only [List.all_cons, Bool.and_eq_true] at hgs
      cases t with
      | nil =>
        have hparse : Generic.parse (renderGenericInput g1) = Except.ok (g1, []) := by
          have h2 := Generic.parse_render g1 [] hgs.1 rfl
          rwa [List.append_nil] at h2
        simp [renderGenericList, parseExplicitlyDropMacroInput,
          ExplicitlyDropInput.parse, hparse, exceptIsOk]
      | cons g2 t2 =>
        have hparse :
            Generic.parse (renderGenericInput g1 ++
                OTok.punct Punct.comma :: renderGenericList (g2 :: t2)) =
              Except.ok (g1, OTok.punct Punct.comma :: renderGenericList (g2 :: t2)) :=
          Generic.parse_render g1 _ hgs.1 rfl
        simp only [renderGenericList]
        simp [parseExplicitlyDropMacroInput, ExplicitlyDropInput.parse,
          hparse, exceptIsOk]
  · have hparse :=
      Generic.parse_render g (OTok.punct Punct.fatArrow :: msgToks) hg rfl
    simp [parseExplicitlyDropMacroInput, ExplicitlyDropInput.parse, hparse]

theorem explicitly_drop_arity_one_witness :
    (exceptIsOk (parseExplicitlyDropMacroInput
        (renderGenericList [Generic.«Type» "T", Generic.«Type» "U"])) = true
      ↔ ([Generic.«Type» "T", Generic.«Type» "U"] : List Generic).length = 1) ∧
    parseExplicitlyDropMacroInput
        (renderGenericInput (Generic.«Type» "T") ++
          OTok.punct Punct.fatArrow :: [OTok.lit "msg"])
      = Except.ok { generic := Generic.«Type» "T", message := some [OTok.lit "msg"] } :=
  explicitly_drop_arity_one [Generic.«Type» "T", Generic.«Type» "U"]
    (Generic.«Type» "T") [OTok.lit "msg"] (by decide) (by decide)

/-- C7: for every destruction-guard request, `explicitly_drop` emits a
destructor `fn drop(&mut self)` whose body is the discard-assignment
statement `_ = { ... };` containing a forced reference to the single
associated constant `MANUAL_DROP` of unit type, whose initializer is the
unconditional `panic!(message)` — no boolean guard: under const evaluation it
panics with the message for every value of any expression. -/
theorem explicitly_drop_emits_unconditional_panic (inp : ExplicitlyDropInput) :
    ∃ parts : DropParts,
      dropParts? (explicitly_drop inp) = some parts ∧
      scanConstDecls parts.implBody =
        [("MANUAL_DROP", [OTok.group Delim.paren []], manualDropInitTokens inp)] ∧
      parts.constName = "MANUAL_DROP" ∧
      parts.refPlacement = parts.implPlacement ∧
      (∀ b : Bool,
        evalEmittedInit b (manualDropInitTokens inp) =
          some (ConstEvalOutcome.panicked (optionToTokens inp.message))) :=
  ⟨_, dropParts_explicitly_drop inp, scanConstDecls_dropImplBody inp,
    rfl, rfl, fun _ => rfl⟩

/-- C8 counterexample: the assertion-request parser does not reject a
descriptor list naming `T` twice — `static_assert!((T, T) true)` parses
successfully into a request with duplicate descriptors, refuting the claim
that duplicates are rejected at parse time with a distinct diagnostic. -/
theorem static_assert_duplicate_identifiers_counterexample :
    parseStaticAssertMacroInput dupExampleTokens =
      Except.ok { generics := [Generic.«Type» "T", Generic.«Type» "T"],
                  expression := [OTok.lit "true"], message := none } := rfl

/-- C8 (amended): a descriptor list containing the same identifier twice is
accepted by the assertion-request parser, which produces a request whose
descriptor sequence carries the duplicate identifier twice; no duplicate
check exists in the parser. -/
theorem static_assert_accepts_duplicate_identifiers (i : String)
    (hi : isIdentName i = true) :
    parseStaticAssertMacroInput
        [OTok.group Delim.paren
           (renderGenericList [Generic.«Type» i, Generic.«Type» i]),
         OTok.lit "true"]
      = Except.ok { generics := [Generic.«Type» i, Generic.«Type» i],
                    expression := [OTok.lit "true"], message := none } := by
  have hall : ([Generic.«Type» i, Generic.«Type» i] : List Generic).all
      Generic.validb = true := by
    simp [List.all_cons, Generic.validb, hi]
  simp only [parseStaticAssertMacroInput, StaticAssertInput.parse]
  rw [parseTerminatedGenerics_render _ hall _
    (by simp [renderGenericList, renderGenericInput])]
  rfl

theorem static_assert_accepts_duplicate_identifiers_witness :
    parseStaticAssertMacroInput
        [OTok.group Delim.paren
           (renderGenericList [Generic.«Type» "N", Generic.«Type» "N"]),
         OTok.lit "true"]
      = Except.ok { generics := [Generic.«Type» "N", Generic.«Type» "N"],
                    expression := [OTok.lit "true"], message := none } :=
  static_assert_accepts_duplicate_identifiers "N" (by decide)

/-- C9: when the leading token of a descriptor is the reserved keyword
`const`, `Generic.parse` fails with the dedicated usage error explaining that
const-generic syntax is `identifier: type` without the keyword — not with the
generic missing-identifier error. -/
theorem generic_parse_const_keyword_error (rest : List OTok) :
    Generic.parse (OTok.ident "const" :: rest)
      = Except.error ("Expected identifier, got keyword `const` instead. "
          ++ "If you meant to declare a const generic, the syntax is just "
          ++ "[identifier]: [type], without `const`.") := by
  have h : isIdentName "const" = false := by decide
  simp [Generic.parse, parseIdent, h, parseConstKeyword]

/-- C10: the token stream emitted by `static_assert` always has the shape
`_ = { ... }` — three top-level token trees forming an assignment to the
placeholder pattern, which in the host language is a unit-valued expression
usable in expression position. -/
theorem static_assert_placeholder_assignment_shape (inp : StaticAssertInput) :
    ∃ body : List OTok,
      static_assert inp =
        [OTok.ident "_", OTok.punct Punct.eq, OTok.group Delim.brace body] :=
  ⟨_, rfl⟩
